import Mathlib

/-
Verification of the per-frame update core of the quickGameFyrox
repository (src/main.rs): input-state tracking, normalized directional
player movement, and the smoothed camera-follow controller.

Modelling conventions:
* `f32` arithmetic is embedded as exact real arithmetic (`ℝ`).
* nalgebra `Vector3<f32>` becomes the record `Vec3`.
* `normalize` on the zero vector produces NaN components in `f32`; this
  undefined case is made explicit by `normalizeOpt`, whose `none` result
  stands for a NaN-contaminated value.
* The fyrox scene graph becomes a partial map from node handles (`Nat`)
  to `Pose` records; `Graph::try_get` / `try_get_mut` return `none`
  exactly when the handle is absent.
* `UnitQuaternion::look_at_rh` is modelled at rotation-matrix level
  (`Rot3`); the quaternion extracted from a rotation matrix by nalgebra
  is a deterministic function of the matrix and distinct rotation
  matrices yield distinct unit quaternions, so equality and inequality
  of stored orientations are faithfully reflected by the matrix.
-/

noncomputable section

/-- 3D vector over the reals, modelling nalgebra `Vector3<f32>`. -/
@[ext]
structure Vec3 where
  x : ℝ
  y : ℝ
  z : ℝ

instance : Add Vec3 :=
  ⟨fun a b => ⟨a.x + b.x, a.y + b.y, a.z + b.z⟩⟩

instance : Sub Vec3 :=
  ⟨fun a b => ⟨a.x - b.x, a.y - b.y, a.z - b.z⟩⟩

instance : Neg Vec3 :=
  ⟨fun a => ⟨-a.x, -a.y, -a.z⟩⟩

instance : SMul ℝ Vec3 :=
  ⟨fun c a => ⟨c * a.x, c * a.y, c * a.z⟩⟩

/-- nalgebra `Vector3::magnitude`: the Euclidean norm. -/
def mag (v : Vec3) : ℝ :=
  Real.sqrt (v.x ^ 2 + v.y ^ 2 + v.z ^ 2)

/-- nalgebra `Vector3::normalize` away from the zero vector: division by
the norm.  In `update_player_movement` the call is guarded by
`movement.magnitude() > 0.0`, so this total form is the faithful
embedding there; the unguarded use in `update_camera` goes through
`normalizeOpt` below. -/
def Vec3.normalize (v : Vec3) : Vec3 :=
  (mag v)⁻¹ • v

/-- nalgebra `Vector3::normalize` with the zero-vector case (where `f32`
normalize returns NaN components) made explicit as `none`. -/
def normalizeOpt (v : Vec3) : Option Vec3 :=
  if mag v = 0 then none else some (Vec3.normalize v)

/-- nalgebra `Vector3::cross`. -/
def cross (a b : Vec3) : Vec3 :=
  ⟨a.y * b.z - a.z * b.y, a.z * b.x - a.x * b.z, a.x * b.y - a.y * b.x⟩

/-- nalgebra `Vector3::lerp`: `self * (1 - t) + rhs * t`. -/
def lerp (a b : Vec3) (t : ℝ) : Vec3 :=
  ((1 - t) • a) + (t • b)

/-- A 3x3 matrix given by its columns, modelling the rotation produced
by nalgebra `Rotation3` / `UnitQuaternion::look_at_rh`. -/
@[ext]
structure Rot3 where
  col0 : Vec3
  col1 : Vec3
  col2 : Vec3

/-- The identity rotation (default orientation of a freshly built
transform). -/
def rotIdentity : Rot3 :=
  ⟨⟨1, 0, 0⟩, ⟨0, 1, 0⟩, ⟨0, 0, 1⟩⟩

/-- The rotation by 90 degrees about the world Y axis, given by its
columns; an example starting orientation distinct from the identity. -/
def rotYaw90 : Rot3 :=
  ⟨⟨0, 0, -1⟩, ⟨0, 1, 0⟩, ⟨1, 0, 0⟩⟩

/-- Matrix transpose; for a rotation matrix this is nalgebra
`Rotation::inverse`. -/
def Rot3.transpose (m : Rot3) : Rot3 :=
  ⟨⟨m.col0.x, m.col1.x, m.col2.x⟩,
   ⟨m.col0.y, m.col1.y, m.col2.y⟩,
   ⟨m.col0.z, m.col1.z, m.col2.z⟩⟩

/-- nalgebra `Rotation3::face_towards`:
`zaxis = dir.normalize(); xaxis = up.cross(&zaxis).normalize();
yaxis = zaxis.cross(&xaxis)`, assembled column-wise.  `none` records a
NaN-contaminated result from a degenerate normalize. -/
def faceTowards (dir up : Vec3) : Option Rot3 :=
  match normalizeOpt dir with
  | none => none
  | some zaxis =>
    match normalizeOpt (cross up zaxis) with
    | none => none
    | some xaxis => some ⟨xaxis, cross zaxis xaxis, zaxis⟩

/-- nalgebra `UnitQuaternion::look_at_rh(dir, up)`, which is
`face_towards(&-dir, up).inverse()`, at rotation-matrix level. -/
def lookAtRH (dir up : Vec3) : Option Rot3 :=
  (faceTowards (-dir) up).map Rot3.transpose

/-- The local-transform data of a scene node that the game code reads
and writes: position and rotation (fyrox `Transform`).  A rotation of
`none` records a NaN-contaminated quaternion. -/
@[ext]
structure Pose where
  position : Vec3
  rotation : Option Rot3

/-- The scene graph as a partial map from node handles to poses. -/
@[ext]
structure Scene where
  graph : Nat → Option Pose

/-- Writing the node at handle `h` back into the graph (the effect of
mutating through `local_transform_mut`). -/
def setPose (s : Scene) (h : Nat) (p : Pose) : Scene :=
  ⟨fun h2 => if h2 = h then some p else s.graph h2⟩

/-- `struct InputState` (src/main.rs lines 50-59). -/
structure InputState where
  move_forward : Bool
  move_backward : Bool
  move_left : Bool
  move_right : Bool
  mouse_delta : Vec3
  camera_yaw : ℝ
  camera_pitch : ℝ

/-- `struct Game` (src/main.rs lines 42-48), with the `Instant`
timestamp embedded as a real number. -/
structure Game where
  scene : Nat
  player : Nat
  camera : Nat
  input_state : InputState
  last_time : ℝ

/-- The raw movement vector built from the four direction booleans
(src/main.rs lines 100-114): forward subtracts 1 from z, backward adds
1 to z, left subtracts 1 from x, right adds 1 to x, starting from the
zero vector. -/
def movementDirection (i : InputState) : Vec3 :=
  let m : Vec3 := ⟨0, 0, 0⟩
  let m := if i.move_forward then { m with z := m.z - 1 } else m
  let m := if i.move_backward then { m with z := m.z + 1 } else m
  let m := if i.move_left then { m with x := m.x - 1 } else m
  let m := if i.move_right then { m with x := m.x + 1 } else m
  m

/-- `Game::update_player_movement` (src/main.rs lines 98-127): if the
raw movement vector is nonzero, normalize it, scale by
`speed * dt` with `speed = 5.0`, and add it to the player position; a
missing player handle skips the write. -/
def update_player_movement (g : Game) (scene : Scene) (dt : ℝ) : Scene :=
  let speed : ℝ := 5
  let movement := movementDirection g.input_state
  if 0 < mag movement then
    match scene.graph g.player with
    | some player_node =>
      let current_position := player_node.position
      setPose scene g.player
        { player_node with position := current_position + (speed * dt) • Vec3.normalize movement }
    | none => scene
  else
    scene

/-- `Game::update_camera` (src/main.rs lines 129-152): read the player
position, form the target `player_position + (0, 3, 5)`, lerp the
camera position toward it with factor `dt * 2.0`, and recompute the
orientation as `look_at_rh(normalize(player_position - new_position), y)`.
A missing player or camera handle skips the whole update. -/
def update_camera (g : Game) (scene : Scene) (dt : ℝ) : Scene :=
  match scene.graph g.player with
  | none => scene
  | some player_node =>
    let player_position := player_node.position
    let camera_offset : Vec3 := ⟨0, 3, 5⟩
    let target_position := player_position + camera_offset
    match scene.graph g.camera with
    | none => scene
    | some camera_node =>
      let current_position := camera_node.position
      let new_position := lerp current_position target_position (dt * 2)
      let look_direction := normalizeOpt (player_position - new_position)
      let rotation := look_direction.bind (fun d => lookAtRH d ⟨0, 1, 0⟩)
      setPose scene g.camera
        { camera_node with position := new_position, rotation := rotation }

/-- The per-frame update `Game::update` (src/main.rs lines 83-96) with
the computed delta-time passed explicitly: movement integration first,
camera follow second. -/
def updateFrame (g : Game) (scene : Scene) (dt : ℝ) : Scene :=
  update_camera g (update_player_movement g scene dt) dt

/-- winit virtual key codes, with the four keys the game matches on
made explicit and every other key collapsed into `other`. -/
inductive VirtualKeyCode where
  | W
  | S
  | A
  | D
  | other (code : Nat)
  deriving DecidableEq

/-- winit `ElementState`. -/
inductive ElementState where
  | pressed
  | released
  deriving DecidableEq, BEq

/-- The fields of winit `KeyboardInput` read by the game. -/
structure KeyboardInput where
  virtual_keycode : Option VirtualKeyCode
  state : ElementState

/-- winit `DeviceEvent`, with the one variant the game inspects made
explicit and every other variant collapsed into `other`. -/
inductive DeviceEvent where
  | mouseMotion (dx dy : ℝ)
  | other (code : Nat)

/-- `Game::handle_key_input` (src/main.rs lines 161-173). -/
def handle_key_input (g : Game) (input : KeyboardInput) : Game :=
  match input.virtual_keycode with
  | none => g
  | some key_code =>
    let is_pressed := input.state == ElementState.pressed
    match key_code with
    | VirtualKeyCode.W =>
      { g with input_state := { g.input_state with move_forward := is_pressed } }
    | VirtualKeyCode.S =>
      { g with input_state := { g.input_state with move_backward := is_pressed } }
    | VirtualKeyCode.A =>
      { g with input_state := { g.input_state with move_left := is_pressed } }
    | VirtualKeyCode.D =>
      { g with input_state := { g.input_state with move_right := is_pressed } }
    | VirtualKeyCode.other _ => g

/-- `Game::handle_device_event` (src/main.rs lines 154-159): a mouse
motion sample overwrites the x and y components of `mouse_delta`. -/
def handle_device_event (g : Game) (e : DeviceEvent) : Game :=
  match e with
  | DeviceEvent.mouseMotion dx dy =>
    { g with input_state :=
        { g.input_state with
            mouse_delta := { g.input_state.mouse_delta with x := dx, y := dy } } }
  | DeviceEvent.other _ => g

/-- `x` lies strictly between `a` and `b`: it is an interior point of
the segment from `a` to `b` (formalising the spec's phrase "strictly
between its previous position and the target"). -/
def strictlyBetween (a b x : Vec3) : Prop :=
  ∃ t : ℝ, 0 < t ∧ t < 1 ∧ x = a + t • (b - a)

/-- An input state holding only the four direction booleans, for
concrete scenarios. -/
def inputOf (f b l r : Bool) : InputState :=
  ⟨f, b, l, r, ⟨0, 0, 0⟩, 0, 0⟩

/-- A two-node scene: the player pose at handle 0 and the camera pose
at handle 1. -/
def sceneOf (pp cp : Pose) : Scene :=
  ⟨fun h => if h = 0 then some pp else if h = 1 then some cp else none⟩

/-- A game whose player handle is 0 and camera handle is 1. -/
def gameOf (i : InputState) : Game :=
  ⟨0, 0, 1, i, 0⟩

@[simp]
theorem Vec3.add_x (a b : Vec3) : (a + b).x = a.x + b.x := rfl

@[simp]
theorem Vec3.add_y (a b : Vec3) : (a + b).y = a.y + b.y := rfl

@[simp]
theorem Vec3.add_z (a b : Vec3) : (a + b).z = a.z + b.z := rfl

@[simp]
theorem Vec3.sub_x (a b : Vec3) : (a - b).x = a.x - b.x := rfl

@[simp]
theorem Vec3.sub_y (a b : Vec3) : (a - b).y = a.y - b.y := rfl

@[simp]
theorem Vec3.sub_z (a b : Vec3) : (a - b).z = a.z - b.z := rfl

@[simp]
theorem Vec3.neg_x (a : Vec3) : (-a).x = -a.x := rfl

@[simp]
theorem Vec3.neg_y (a : Vec3) : (-a).y = -a.y := rfl

@[simp]
theorem Vec3.neg_z (a : Vec3) : (-a).z = -a.z := rfl

@[simp]
theorem Vec3.smul_x (c : ℝ) (a : Vec3) : (c • a).x = c * a.x := rfl

@[simp]
theorem Vec3.smul_y (c : ℝ) (a : Vec3) : (c • a).y = c * a.y := rfl

@[simp]
theorem Vec3.smul_z (c : ℝ) (a : Vec3) : (c • a).z = c * a.z := rfl

theorem mag_nonneg (v : Vec3) : 0 ≤ mag v :=
  Real.sqrt_nonneg _

@[simp]
theorem mag_zero_vec : mag ⟨0, 0, 0⟩ = 0 := by
  simp [mag]

theorem mag_eq_zero_iff (v : Vec3) : mag v = 0 ↔ v = ⟨0, 0, 0⟩ := by
  constructor
  · intro h
    have hsum : v.x ^ 2 + v.y ^ 2 + v.z ^ 2 = 0 := by
      have h0 : 0 ≤ v.x ^ 2 + v.y ^ 2 + v.z ^ 2 := by positivity
      exact (Real.sqrt_eq_zero h0).mp h
    have hx : v.x = 0 := by nlinarith [sq_nonneg v.x, sq_nonneg v.y, sq_nonneg v.z]
    have hy : v.y = 0 := by nlinarith [sq_nonneg v.x, sq_nonneg v.y, sq_nonneg v.z]
    have hz : v.z = 0 := by nlinarith [sq_nonneg v.x, sq_nonneg v.y, sq_nonneg v.z]
    exact Vec3.ext hx hy hz
  · intro h
    rw [h]
    exact mag_zero_vec

theorem mag_pos_of_ne (v : Vec3) (h : v ≠ ⟨0, 0, 0⟩) : 0 < mag v :=
  lt_of_le_of_ne (mag_nonneg v) (fun he => h ((mag_eq_zero_iff v).mp he.symm))

theorem mag_smul (c : ℝ) (v : Vec3) : mag (c • v) = |c| * mag v := by
  have h : (c * v.x) ^ 2 + (c * v.y) ^ 2 + (c * v.z) ^ 2
      = c ^ 2 * (v.x ^ 2 + v.y ^ 2 + v.z ^ 2) := by ring
  rw [mag, Vec3.smul_x, Vec3.smul_y, Vec3.smul_z, h,
    Real.sqrt_mul (sq_nonneg c), Real.sqrt_sq_eq_abs, mag]

theorem mag_normalize (v : Vec3) (h : mag v ≠ 0) : mag (Vec3.normalize v) = 1 := by
  rw [Vec3.normalize, mag_smul, abs_of_nonneg (inv_nonneg.mpr (mag_nonneg v)),
    inv_mul_cancel₀ h]

theorem lerp_zero (a b : Vec3) : lerp a b 0 = a := by
  ext <;> simp [lerp]

theorem lerp_eq_add_smul (a b : Vec3) (t : ℝ) : lerp a b t = a + t • (b - a) := by
  ext <;> simp [lerp] <;> ring

@[simp]
theorem setPose_graph_self (s : Scene) (h : Nat) (p : Pose) :
    (setPose s h p).graph h = some p := by
  simp [setPose]

theorem setPose_graph_ne (s : Scene) (h h2 : Nat) (p : Pose) (hne : h2 ≠ h) :
    (setPose s h p).graph h2 = s.graph h2 := by
  simp [setPose, hne]

theorem setPose_same (s : Scene) (h : Nat) (p : Pose) (hp : s.graph h = some p) :
    setPose s h p = s := by
  ext1
  funext h2
  by_cases he : h2 = h
  · subst he
    simp [setPose, hp]
  · simp [setPose, he]

theorem movementDirection_y (i : InputState) : (movementDirection i).y = 0 := by
  cases hf : i.move_forward <;> cases hb : i.move_backward <;>
    cases hl : i.move_left <;> cases hr : i.move_right <;>
    simp [movementDirection, hf, hb, hl, hr]

theorem update_player_movement_of_dir_zero (g : Game) (s : Scene) (dt : ℝ)
    (hm : movementDirection g.input_state = ⟨0, 0, 0⟩) :
    update_player_movement g s dt = s := by
  rw [update_player_movement]
  simp [hm]

theorem update_player_movement_of_player_none (g : Game) (s : Scene) (dt : ℝ)
    (hp : s.graph g.player = none) :
    update_player_movement g s dt = s := by
  rw [update_player_movement]
  simp only [hp]
  split <;> rfl

theorem update_player_movement_of_some (g : Game) (s : Scene) (dt : ℝ) (p : Pose)
    (hp : s.graph g.player = some p)
    (hm : movementDirection g.input_state ≠ ⟨0, 0, 0⟩) :
    update_player_movement g s dt =
      setPose s g.player
        { p with position :=
            p.position + (5 * dt) • Vec3.normalize (movementDirection g.input_state) } := by
  rw [update_player_movement]
  simp only [hp, if_pos (mag_pos_of_ne _ hm)]

theorem update_player_movement_graph_ne (g : Game) (s : Scene) (dt : ℝ) (h : Nat)
    (hne : h ≠ g.player) :
    (update_player_movement g s dt).graph h = s.graph h := by
  rw [update_player_movement]
  split
  · split
    · exact setPose_graph_ne _ _ _ _ hne
    · rfl
  · rfl

theorem update_camera_of_player_none (g : Game) (s : Scene) (dt : ℝ)
    (hp : s.graph g.player = none) :
    update_camera g s dt = s := by
  rw [update_camera]
  simp [hp]

theorem update_camera_of_camera_none (g : Game) (s : Scene) (dt : ℝ)
    (hc : s.graph g.camera = none) :
    update_camera g s dt = s := by
  rw [update_camera]
  cases hp : s.graph g.player with
  | none => rfl
  | some p => simp [hc]

theorem movementDirection_forward_only :
    movementDirection (inputOf true false false false) = ⟨0, 0, -1⟩ := by
  simp [movementDirection, inputOf]

theorem movementDirection_forward_only_ne :
    movementDirection (inputOf true false false false) ≠ ⟨0, 0, 0⟩ := by
  rw [movementDirection_forward_only]
  intro hcon
  have := congrArg Vec3.z hcon
  norm_num at this

theorem movementDirection_none :
    movementDirection (inputOf false false false false) = ⟨0, 0, 0⟩ := by
  simp [movementDirection, inputOf]

theorem movementDirection_fb_cancel :
    movementDirection (inputOf true true false false) = ⟨0, 0, 0⟩ := by
  simp [movementDirection, inputOf]

theorem mag_unit_negz : mag ⟨0, 0, -1⟩ = 1 := by
  rw [mag]
  norm_num [Real.sqrt_one]

theorem normalize_unit_negz : Vec3.normalize ⟨0, 0, -1⟩ = ⟨0, 0, -1⟩ := by
  rw [Vec3.normalize, mag_unit_negz]
  ext <;> simp

theorem update_camera_of_some (g : Game) (s : Scene) (dt : ℝ) (pnode cnode : Pose)
    (hp : s.graph g.player = some pnode) (hc : s.graph g.camera = some cnode) :
    update_camera g s dt =
      setPose s g.camera
        { cnode with
            position := lerp cnode.position (pnode.position + ⟨0, 3, 5⟩) (dt * 2),
            rotation :=
              (normalizeOpt (pnode.position -
                lerp cnode.position (pnode.position + ⟨0, 3, 5⟩) (dt * 2))).bind
                (fun d => lookAtRH d ⟨0, 1, 0⟩) } := by
  rw [update_camera]
  simp only [hp, hc]

theorem normalizeOpt_unit (v : Vec3) (h : mag v = 1) : normalizeOpt v = some v := by
  rw [normalizeOpt, if_neg (by rw [h]; norm_num)]
  refine congrArg some ?_
  rw [Vec3.normalize, h]
  ext <;> simp

theorem mag_negz5 : mag ⟨0, 0, -5⟩ = 5 := by
  rw [mag, show (0:ℝ) ^ 2 + 0 ^ 2 + (-5:ℝ) ^ 2 = 5 ^ 2 by norm_num]
  exact Real.sqrt_sq (by norm_num)

theorem normalizeOpt_negz5 : normalizeOpt ⟨0, 0, -5⟩ = some ⟨0, 0, -1⟩ := by
  rw [normalizeOpt, if_neg (by rw [mag_negz5]; norm_num)]
  refine congrArg some ?_
  rw [Vec3.normalize, mag_negz5]
  ext <;> norm_num

theorem lookAtRH_negz : lookAtRH ⟨0, 0, -1⟩ ⟨0, 1, 0⟩ = some rotIdentity := by
  have hneg : -(⟨0, 0, -1⟩ : Vec3) = ⟨0, 0, 1⟩ := by
    ext <;> simp
  have hz : normalizeOpt ⟨0, 0, 1⟩ = some ⟨0, 0, 1⟩ :=
    normalizeOpt_unit _ (by rw [mag]; norm_num [Real.sqrt_one])
  have hcx : cross ⟨0, 1, 0⟩ ⟨0, 0, 1⟩ = ⟨1, 0, 0⟩ := by
    rw [cross]
    ext <;> norm_num
  have hx : normalizeOpt ⟨1, 0, 0⟩ = some ⟨1, 0, 0⟩ :=
    normalizeOpt_unit _ (by rw [mag]; norm_num [Real.sqrt_one])
  have hcy : cross ⟨0, 0, 1⟩ ⟨1, 0, 0⟩ = ⟨0, 1, 0⟩ := by
    rw [cross]
    ext <;> norm_num
  rw [lookAtRH, hneg]
  simp only [faceTowards, hz, hcx, hx, hcy, Option.map_some']
  rfl

theorem lerp_dt_zero (a b : Vec3) : lerp a b ((0:ℝ) * 2) = a := by
  ext <;> simp [lerp]

theorem update_player_movement_dt_zero (g : Game) (s : Scene) :
    update_player_movement g s 0 = s := by
  by_cases hm : movementDirection g.input_state = ⟨0, 0, 0⟩
  · exact update_player_movement_of_dir_zero g s 0 hm
  · cases hp : s.graph g.player with
    | none => exact update_player_movement_of_player_none g s 0 hp
    | some p =>
      rw [update_player_movement_of_some g s 0 p hp hm]
      have hpose : ({ p with position := p.position +
          (5 * (0:ℝ)) • Vec3.normalize (movementDirection g.input_state) } : Pose) = p := by
        refine Pose.ext ?_ rfl
        show p.position +
          (5 * (0:ℝ)) • Vec3.normalize (movementDirection g.input_state) = p.position
        ext <;> simp
      rw [hpose]
      exact setPose_same s g.player p hp

theorem update_camera_dt_zero_fix (g : Game) (s : Scene) (pnode cnode : Pose)
    (hp : s.graph g.player = some pnode) (hc : s.graph g.camera = some cnode)
    (hrot : cnode.rotation =
      (normalizeOpt (pnode.position - cnode.position)).bind
        (fun d => lookAtRH d ⟨0, 1, 0⟩)) :
    update_camera g s 0 = s := by
  rw [update_camera_of_some g s 0 pnode cnode hp hc, lerp_dt_zero]
  have hpose : ({ cnode with
      position := cnode.position,
      rotation := (normalizeOpt (pnode.position - cnode.position)).bind
        (fun d => lookAtRH d ⟨0, 1, 0⟩) } : Pose) = cnode :=
    Pose.ext rfl hrot.symm
  rw [hpose]
  exact setPose_same s g.camera cnode hc

theorem update_camera_dt_zero_idem (g : Game) (s : Scene) :
    update_camera g (update_camera g s 0) 0 = update_camera g s 0 := by
  cases hp : s.graph g.player with
  | none =>
    have h1 := update_camera_of_player_none g s 0 hp
    rw [h1]
    exact h1
  | some pnode =>
    cases hc : s.graph g.camera with
    | none =>
      have h1 := update_camera_of_camera_none g s 0 hc
      rw [h1]
      exact h1
    | some cnode =>
      have h1 := update_camera_of_some g s 0 pnode cnode hp hc
      rw [lerp_dt_zero] at h1
      rw [h1]
      by_cases he : g.player = g.camera
      · have hpc : pnode = cnode := by
          rw [he, hc] at hp
          exact (Option.some.inj hp).symm
        subst hpc
        exact update_camera_dt_zero_fix g _
          ⟨pnode.position, (normalizeOpt (pnode.position - pnode.position)).bind
            (fun d => lookAtRH d ⟨0, 1, 0⟩)⟩
          ⟨pnode.position, (normalizeOpt (pnode.position - pnode.position)).bind
            (fun d => lookAtRH d ⟨0, 1, 0⟩)⟩
          (by rw [he]; exact setPose_graph_self _ _ _)
          (setPose_graph_self _ _ _)
          rfl
      · exact update_camera_dt_zero_fix g _
          pnode
          ⟨cnode.position, (normalizeOpt (pnode.position - cnode.position)).bind
            (fun d => lookAtRH d ⟨0, 1, 0⟩)⟩
          (by rw [setPose_graph_ne _ _ _ _ he]; exact hp)
          (setPose_graph_self _ _ _)
          rfl

theorem update_camera_dt_zero_positions (g : Game) (s : Scene) (h : Nat) :
    ((update_camera g s 0).graph h).map (fun q => q.position) =
      (s.graph h).map (fun q => q.position) := by
  cases hp : s.graph g.player with
  | none => rw [update_camera_of_player_none g s 0 hp]
  | some pnode =>
    cases hc : s.graph g.camera with
    | none => rw [update_camera_of_camera_none g s 0 hc]
    | some cnode =>
      rw [update_camera_of_some g s 0 pnode cnode hp hc, lerp_dt_zero]
      by_cases he : h = g.camera
      · subst he
        rw [setPose_graph_self, hc]
        rfl
      · rw [setPose_graph_ne _ _ _ _ he]

/-- C8: holding opposing keys cancels exactly: with forward and backward
both true the raw direction vector's Z component is exactly 0, and with
left and right both true its X component is exactly 0, for every state
of the other booleans. -/
theorem c8_opposing_cancel (i : InputState) :
    (i.move_forward = true → i.move_backward = true → (movementDirection i).z = 0) ∧
    (i.move_left = true → i.move_right = true → (movementDirection i).x = 0) := by
  constructor
  · intro h1 h2
    cases hl : i.move_left <;> cases hr : i.move_right <;>
      simp [movementDirection, h1, h2, hl, hr]
  · intro h1 h2
    cases hf : i.move_forward <;> cases hb : i.move_backward <;>
      simp [movementDirection, h1, h2, hf, hb]

/-- Witness for C8 at the all-keys-held input state. -/
theorem c8_witness :
    (movementDirection (inputOf true true true true)).z = 0 ∧
    (movementDirection (inputOf true true true true)).x = 0 :=
  ⟨(c8_opposing_cancel (inputOf true true true true)).1 rfl rfl,
   (c8_opposing_cancel (inputOf true true true true)).2 rfl rfl⟩

/-- C9: movement is confined to the horizontal plane: for every input
state, every dt, every scene and every handle, one call of
`update_player_movement` leaves every node position's Y component
unchanged (in particular the player's). -/
theorem c9_y_preserved (g : Game) (s : Scene) (dt : ℝ) (h : Nat) :
    ((update_player_movement g s dt).graph h).map (fun p => p.position.y) =
      (s.graph h).map (fun p => p.position.y) := by
  by_cases hm : movementDirection g.input_state = ⟨0, 0, 0⟩
  · rw [update_player_movement_of_dir_zero g s dt hm]
  · cases hp : s.graph g.player with
    | none => rw [update_player_movement_of_player_none g s dt hp]
    | some p =>
      rw [update_player_movement_of_some g s dt p hp hm]
      by_cases he : h = g.player
      · subst he
        rw [setPose_graph_self, hp]
        simp [Vec3.normalize, movementDirection_y]
      · rw [setPose_graph_ne _ _ _ _ he]

/-- C1 counterexample: with forward and backward both held (so at least
one direction boolean is true) and dt = 1, the displacement magnitude
of one `update_player_movement` call is 0, not `5.0 * dt = 5`. -/
theorem c1_counterexample :
    (inputOf true true false false).move_forward = true ∧
    (0 : ℝ) ≤ 1 ∧
    ((update_player_movement (gameOf (inputOf true true false false))
        (sceneOf ⟨⟨0, 0, 0⟩, some rotIdentity⟩ ⟨⟨0, 3, 5⟩, some rotIdentity⟩) 1).graph
        0).map (fun q => mag (q.position - ⟨0, 0, 0⟩)) = some 0 ∧
    (0 : ℝ) ≠ 5 * 1 := by
  refine ⟨rfl, by norm_num, ?_, by norm_num⟩
  rw [update_player_movement_of_dir_zero _ _ _ movementDirection_fb_cancel]
  have hsub : (⟨0, 0, 0⟩ : Vec3) - ⟨0, 0, 0⟩ = ⟨0, 0, 0⟩ := by ext <;> simp
  show (some (⟨⟨0, 0, 0⟩, some rotIdentity⟩ : Pose)).map
      (fun q => mag (q.position - ⟨0, 0, 0⟩)) = some 0
  simp only [Option.map_some']
  rw [hsub, mag_zero_vec]

/-- C1 (amended): for every game state, scene, player pose and dt ≥ 0,
the displacement magnitude of one `update_player_movement` call is 0
when the raw direction vector is zero (all booleans false, or opposing
keys fully cancelling), and exactly `5.0 * dt` when the raw direction
vector is nonzero; in particular diagonal input gives the same speed as
single-axis input. -/
theorem c1_movement_magnitude (g : Game) (s : Scene) (dt : ℝ) (p : Pose)
    (h0 : 0 ≤ dt) (hp : s.graph g.player = some p) :
    (movementDirection g.input_state = ⟨0, 0, 0⟩ →
      ((update_player_movement g s dt).graph g.player).map
        (fun q => mag (q.position - p.position)) = some 0) ∧
    (movementDirection g.input_state ≠ ⟨0, 0, 0⟩ →
      ((update_player_movement g s dt).graph g.player).map
        (fun q => mag (q.position - p.position)) = some (5 * dt)) := by
  constructor
  · intro hm
    rw [update_player_movement_of_dir_zero g s dt hm, hp]
    have hsub : p.position - p.position = (⟨0, 0, 0⟩ : Vec3) := by ext <;> simp
    simp [hsub]
  · intro hm
    rw [update_player_movement_of_some g s dt p hp hm, setPose_graph_self]
    have hsub :
        (p.position + (5 * dt) • Vec3.normalize (movementDirection g.input_state)) -
          p.position = (5 * dt) • Vec3.normalize (movementDirection g.input_state) := by
      ext <;> simp
    have hmagne : mag (movementDirection g.input_state) ≠ 0 :=
      fun hz => hm ((mag_eq_zero_iff _).mp hz)
    have hval :
        mag ((p.position + (5 * dt) • Vec3.normalize (movementDirection g.input_state)) -
          p.position) = 5 * dt := by
      rw [hsub, mag_smul, mag_normalize _ hmagne, mul_one,
        abs_of_nonneg (mul_nonneg (by norm_num) h0)]
    simp only [Option.map_some']
    rw [hval]

/-- Witness for C1: forward only held, dt = 1, player at the origin;
the displacement magnitude is exactly `5 * 1`. -/
theorem c1_witness :
    ((update_player_movement (gameOf (inputOf true false false false))
        (sceneOf ⟨⟨0, 0, 0⟩, some rotIdentity⟩ ⟨⟨0, 3, 5⟩, some rotIdentity⟩) 1).graph
        (gameOf (inputOf true false false false)).player).map
      (fun q => mag (q.position - (⟨0, 0, 0⟩ : Vec3))) = some (5 * 1) :=
  (c1_movement_magnitude (gameOf (inputOf true false false false))
    (sceneOf ⟨⟨0, 0, 0⟩, some rotIdentity⟩ ⟨⟨0, 3, 5⟩, some rotIdentity⟩) 1
    ⟨⟨0, 0, 0⟩, some rotIdentity⟩ (by norm_num) rfl).2
    movementDirection_forward_only_ne

/-- C4: player at the origin, only forward held, one movement update
with dt = 1 puts the player at (0, 0, -5); then with the camera at
(0, 3, 5), one camera update with dt = 0.5 (interpolation factor
0.5 * 2 = 1) puts the camera exactly at the target (0, 3, 0). -/
theorem c4_scenario :
    ((update_player_movement (gameOf (inputOf true false false false))
        (sceneOf ⟨⟨0, 0, 0⟩, some rotIdentity⟩ ⟨⟨0, 3, 5⟩, some rotIdentity⟩) 1).graph
        0).map (fun q => q.position) = some ⟨0, 0, -5⟩ ∧
    ((update_camera (gameOf (inputOf true false false false))
        (update_player_movement (gameOf (inputOf true false false false))
          (sceneOf ⟨⟨0, 0, 0⟩, some rotIdentity⟩ ⟨⟨0, 3, 5⟩, some rotIdentity⟩) 1)
        (1 / 2)).graph 1).map (fun q => q.position) = some ⟨0, 3, 0⟩ := by
  have hply : (gameOf (inputOf true false false false)).player = 0 := rfl
  have hcam : (gameOf (inputOf true false false false)).camera = 1 := rfl
  have hmove :
      update_player_movement (gameOf (inputOf true false false false))
        (sceneOf ⟨⟨0, 0, 0⟩, some rotIdentity⟩ ⟨⟨0, 3, 5⟩, some rotIdentity⟩) 1 =
      setPose (sceneOf ⟨⟨0, 0, 0⟩, some rotIdentity⟩ ⟨⟨0, 3, 5⟩, some rotIdentity⟩) 0
        ⟨⟨0, 0, -5⟩, some rotIdentity⟩ := by
    rw [update_player_movement_of_some _ _ _ ⟨⟨0, 0, 0⟩, some rotIdentity⟩ rfl
      movementDirection_forward_only_ne,
      show (gameOf (inputOf true false false false)).input_state =
        inputOf true false false false from rfl,
      movementDirection_forward_only, normalize_unit_negz, hply]
    refine congrArg (setPose _ 0) ?_
    refine Pose.ext ?_ rfl
    show (⟨0, 0, 0⟩ : Vec3) + (5 * 1) • (⟨0, 0, -1⟩ : Vec3) = ⟨0, 0, -5⟩
    ext <;> simp
  constructor
  · rw [hmove, setPose_graph_self]
    rfl
  · rw [hmove]
    rw [update_camera_of_some _ _ _ ⟨⟨0, 0, -5⟩, some rotIdentity⟩
      ⟨⟨0, 3, 5⟩, some rotIdentity⟩ (by rw [hply]; exact setPose_graph_self _ _ _)
      (by rw [hcam]; exact setPose_graph_ne _ _ _ _ (by norm_num)),
      hcam, setPose_graph_self]
    simp only [Option.map_some']
    refine congrArg some ?_
    show lerp (⟨0, 3, 5⟩ : Vec3) ((⟨0, 0, -5⟩ : Vec3) + ⟨0, 3, 5⟩) (1 / 2 * 2) = ⟨0, 3, 0⟩
    ext <;> simp [lerp]

/-- C3 counterexample: with the previous camera position distinct from
the target, the updated camera position is not strictly between the
previous position and the target at dt = 0 (it equals the previous
position) nor at dt = 1/2 (it equals the target), although both dt
values satisfy dt * 2 <= 1. -/
theorem c3_counterexample :
    (⟨0, 0, 0⟩ : Vec3) ≠ (⟨0, 0, 0⟩ : Vec3) + ⟨0, 3, 5⟩ ∧
    (0 : ℝ) * 2 ≤ 1 ∧
    ((update_camera (gameOf (inputOf false false false false))
        (sceneOf ⟨⟨0, 0, 0⟩, some rotIdentity⟩ ⟨⟨0, 0, 0⟩, some rotIdentity⟩) 0).graph
        1).map (fun q => q.position) = some ⟨0, 0, 0⟩ ∧
    ¬ strictlyBetween ⟨0, 0, 0⟩ ((⟨0, 0, 0⟩ : Vec3) + ⟨0, 3, 5⟩) ⟨0, 0, 0⟩ ∧
    (1 / 2 : ℝ) * 2 ≤ 1 ∧
    ((update_camera (gameOf (inputOf false false false false))
        (sceneOf ⟨⟨0, 0, 0⟩, some rotIdentity⟩ ⟨⟨0, 0, 0⟩, some rotIdentity⟩)
        (1 / 2)).graph 1).map (fun q => q.position) =
      some ((⟨0, 0, 0⟩ : Vec3) + ⟨0, 3, 5⟩) ∧
    ¬ strictlyBetween ⟨0, 0, 0⟩ ((⟨0, 0, 0⟩ : Vec3) + ⟨0, 3, 5⟩)
      ((⟨0, 0, 0⟩ : Vec3) + ⟨0, 3, 5⟩) := by
  have hcam : (gameOf (inputOf false false false false)).camera = 1 := rfl
  refine ⟨?_, by norm_num, ?_, ?_, by norm_num, ?_, ?_⟩
  · intro hcon
    have := congrArg Vec3.y hcon
    norm_num at this
  · rw [update_camera_of_some _ _ _ ⟨⟨0, 0, 0⟩, some rotIdentity⟩
      ⟨⟨0, 0, 0⟩, some rotIdentity⟩ rfl rfl, hcam, setPose_graph_self]
    simp only [Option.map_some']
    refine congrArg some ?_
    show lerp (⟨0, 0, 0⟩ : Vec3) ((⟨0, 0, 0⟩ : Vec3) + ⟨0, 3, 5⟩) (0 * 2) = ⟨0, 0, 0⟩
    ext <;> simp [lerp]
  · rintro ⟨t, ht0, ht1, heq⟩
    have hy := congrArg Vec3.y heq
    simp [lerp] at hy
    nlinarith
  · rw [update_camera_of_some _ _ _ ⟨⟨0, 0, 0⟩, some rotIdentity⟩
      ⟨⟨0, 0, 0⟩, some rotIdentity⟩ rfl rfl, hcam, setPose_graph_self]
    simp only [Option.map_some']
    refine congrArg some ?_
    show lerp (⟨0, 0, 0⟩ : Vec3) ((⟨0, 0, 0⟩ : Vec3) + ⟨0, 3, 5⟩) (1 / 2 * 2) =
      (⟨0, 0, 0⟩ : Vec3) + ⟨0, 3, 5⟩
    ext <;> simp [lerp]
  · rintro ⟨t, ht0, ht1, heq⟩
    have hy := congrArg Vec3.y heq
    simp [lerp] at hy
    nlinarith

/-- C3 (amended): for every scene with player and camera poses present,
every previous camera position distinct from the target
`player_position + (0, 3, 5)`, and every dt with `0 < dt` and
`dt * 2 < 1`, the camera position produced by one `update_camera` call
is the lerp of the previous position toward the target with factor
`dt * 2`, and lies strictly between the previous position and the
target. -/
theorem c3_no_overshoot (g : Game) (s : Scene) (dt : ℝ) (pnode cnode : Pose)
    (hp : s.graph g.player = some pnode) (hc : s.graph g.camera = some cnode)
    (hne : cnode.position ≠ pnode.position + ⟨0, 3, 5⟩)
    (h1 : 0 < dt) (h2 : dt * 2 < 1) :
    ((update_camera g s dt).graph g.camera).map (fun q => q.position) =
      some (lerp cnode.position (pnode.position + ⟨0, 3, 5⟩) (dt * 2)) ∧
    strictlyBetween cnode.position (pnode.position + ⟨0, 3, 5⟩)
      (lerp cnode.position (pnode.position + ⟨0, 3, 5⟩) (dt * 2)) := by
  constructor
  · rw [update_camera_of_some g s dt pnode cnode hp hc, setPose_graph_self]
    simp only [Option.map_some']
  · exact ⟨dt * 2, by linarith, h2, lerp_eq_add_smul _ _ _⟩

/-- Witness for C3 at a concrete scene: player at the origin, camera at
the origin (distinct from the target (0, 3, 5)), dt = 1/4. -/
theorem c3_witness :
    ((update_camera (gameOf (inputOf false false false false))
        (sceneOf ⟨⟨0, 0, 0⟩, some rotIdentity⟩ ⟨⟨0, 0, 0⟩, some rotIdentity⟩)
        (1 / 4)).graph (gameOf (inputOf false false false false)).camera).map
      (fun q => q.position) =
      some (lerp ⟨0, 0, 0⟩ ((⟨0, 0, 0⟩ : Vec3) + ⟨0, 3, 5⟩) (1 / 4 * 2)) ∧
    strictlyBetween ⟨0, 0, 0⟩ ((⟨0, 0, 0⟩ : Vec3) + ⟨0, 3, 5⟩)
      (lerp ⟨0, 0, 0⟩ ((⟨0, 0, 0⟩ : Vec3) + ⟨0, 3, 5⟩) (1 / 4 * 2)) :=
  c3_no_overshoot (gameOf (inputOf false false false false))
    (sceneOf ⟨⟨0, 0, 0⟩, some rotIdentity⟩ ⟨⟨0, 0, 0⟩, some rotIdentity⟩) (1 / 4)
    ⟨⟨0, 0, 0⟩, some rotIdentity⟩ ⟨⟨0, 0, 0⟩, some rotIdentity⟩ rfl rfl
    (by
      intro hcon
      have := congrArg Vec3.y hcon
      norm_num at this)
    (by norm_num) (by norm_num)

/-- C2: the code does not guard the zero-length look direction.  With
the camera position exactly equal to the player position (both at the
origin, dt = 0 so the lerp keeps them coincident), `update_camera`
normalizes the zero vector and stores a NaN-contaminated orientation
(modelled as `rotation = none`) instead of retaining the previous
orientation `some rotIdentity`. -/
theorem c2_nan_orientation :
    ((update_camera (gameOf (inputOf false false false false))
        (sceneOf ⟨⟨0, 0, 0⟩, some rotIdentity⟩ ⟨⟨0, 0, 0⟩, some rotIdentity⟩) 0).graph
        1) = some ⟨⟨0, 0, 0⟩, none⟩ ∧
    (none : Option Rot3) ≠ some rotIdentity := by
  have hcam : (gameOf (inputOf false false false false)).camera = 1 := rfl
  constructor
  · rw [update_camera_of_some _ _ _ ⟨⟨0, 0, 0⟩, some rotIdentity⟩
      ⟨⟨0, 0, 0⟩, some rotIdentity⟩ rfl rfl, hcam, setPose_graph_self]
    refine congrArg some ?_
    have hpos : lerp (⟨0, 0, 0⟩ : Vec3) ((⟨0, 0, 0⟩ : Vec3) + ⟨0, 3, 5⟩) (0 * 2) =
        ⟨0, 0, 0⟩ := by
      ext <;> simp [lerp]
    refine Pose.ext ?_ ?_
    · exact hpos
    · show (normalizeOpt ((⟨0, 0, 0⟩ : Vec3) -
          lerp (⟨0, 0, 0⟩ : Vec3) ((⟨0, 0, 0⟩ : Vec3) + ⟨0, 3, 5⟩) (0 * 2))).bind
          (fun d => lookAtRH d ⟨0, 1, 0⟩) = none
      have hdir : (⟨0, 0, 0⟩ : Vec3) -
          lerp (⟨0, 0, 0⟩ : Vec3) ((⟨0, 0, 0⟩ : Vec3) + ⟨0, 3, 5⟩) (0 * 2) =
          ⟨0, 0, 0⟩ := by
        rw [hpos]
        ext <;> simp
      rw [hdir, normalizeOpt, if_pos mag_zero_vec]
      rfl
  · simp

/-- C6: the per-frame update runs the movement integrator first, so the
camera target of the same frame is the player's post-movement position
plus the fixed offset (0, 3, 5): the new camera position is the lerp of
the old camera position toward that post-movement target. -/
theorem c6_camera_target_post_movement (g : Game) (s : Scene) (dt : ℝ) (pp1 cp : Pose)
    (hpc : g.player ≠ g.camera)
    (hc : s.graph g.camera = some cp)
    (hp1 : (update_player_movement g s dt).graph g.player = some pp1) :
    ((updateFrame g s dt).graph g.camera).map (fun q => q.position) =
      some (lerp cp.position (pp1.position + ⟨0, 3, 5⟩) (dt * 2)) := by
  have hc1 : (update_player_movement g s dt).graph g.camera = some cp := by
    rw [update_player_movement_graph_ne g s dt g.camera (fun he => hpc he.symm), hc]
  rw [updateFrame, update_camera_of_some g _ dt pp1 cp hp1 hc1, setPose_graph_self]
  simp only [Option.map_some']

/-- Witness for C6: no keys held, dt = 1; the movement step leaves the
player at the origin and the camera target is (0, 3, 5). -/
theorem c6_witness :
    ((updateFrame (gameOf (inputOf false false false false))
        (sceneOf ⟨⟨0, 0, 0⟩, some rotIdentity⟩ ⟨⟨0, 3, 5⟩, some rotIdentity⟩) 1).graph
        (gameOf (inputOf false false false false)).camera).map (fun q => q.position) =
      some (lerp ⟨0, 3, 5⟩ ((⟨0, 0, 0⟩ : Vec3) + ⟨0, 3, 5⟩) (1 * 2)) :=
  c6_camera_target_post_movement (gameOf (inputOf false false false false))
    (sceneOf ⟨⟨0, 0, 0⟩, some rotIdentity⟩ ⟨⟨0, 3, 5⟩, some rotIdentity⟩) 1
    ⟨⟨0, 0, 0⟩, some rotIdentity⟩ ⟨⟨0, 3, 5⟩, some rotIdentity⟩
    (by decide)
    rfl
    (by rw [update_player_movement_of_dir_zero _ _ _ movementDirection_none]; rfl)

/-- C7: if the player handle is absent the whole frame update is a
no-op on the scene; if the camera handle is absent the camera entry is
left unchanged; in both cases the update is total (no error is
propagated). -/
theorem c7_missing_handles (g : Game) (s : Scene) (dt : ℝ) :
    (s.graph g.player = none → updateFrame g s dt = s) ∧
    (s.graph g.camera = none →
      (updateFrame g s dt).graph g.camera = s.graph g.camera) := by
  constructor
  · intro hp
    rw [updateFrame, update_player_movement_of_player_none g s dt hp,
      update_camera_of_player_none g s dt hp]
  · intro hc
    rw [updateFrame]
    have hc1 : (update_player_movement g s dt).graph g.camera = none := by
      by_cases he : g.camera = g.player
      · rw [update_player_movement_of_player_none g s dt (he ▸ hc)]
        exact hc
      · rw [update_player_movement_graph_ne g s dt g.camera he, hc]
    rw [update_camera_of_camera_none g _ dt hc1, hc1, hc]

/-- Witness for C7 on the empty scene with forward held: the frame
update leaves the scene untouched and the camera entry absent. -/
theorem c7_witness :
    updateFrame (gameOf (inputOf true false false false)) ⟨fun _ => none⟩ 1 =
      (⟨fun _ => none⟩ : Scene) ∧
    (updateFrame (gameOf (inputOf true false false false)) ⟨fun _ => none⟩ 1).graph
        (gameOf (inputOf true false false false)).camera =
      (⟨fun _ => none⟩ : Scene).graph (gameOf (inputOf true false false false)).camera :=
  ⟨(c7_missing_handles (gameOf (inputOf true false false false)) ⟨fun _ => none⟩ 1).1 rfl,
   (c7_missing_handles (gameOf (inputOf true false false false)) ⟨fun _ => none⟩ 1).2 rfl⟩

/-- C10: the event handlers mutate only the input state:
`handle_key_input` never touches the handles, the timestamp, the mouse
delta or the yaw/pitch accumulators, and leaves the whole game state
unchanged on an unrecognized or absent key code; `handle_device_event`
never touches the handles, the timestamp, the four direction booleans,
the Z component of the mouse delta or the yaw/pitch accumulators, and a
mouse-motion sample overwrites exactly the X and Y components of the
mouse delta.  Neither handler receives the scene, so the entity poses
cannot be modified. -/
theorem c10_handlers_touch_input_only (g : Game) (input : KeyboardInput)
    (e : DeviceEvent) (st : ElementState) (n : Nat) (dx dy : ℝ) :
    (handle_key_input g input).scene = g.scene ∧
    (handle_key_input g input).player = g.player ∧
    (handle_key_input g input).camera = g.camera ∧
    (handle_key_input g input).last_time = g.last_time ∧
    (handle_key_input g input).input_state.mouse_delta = g.input_state.mouse_delta ∧
    (handle_key_input g input).input_state.camera_yaw = g.input_state.camera_yaw ∧
    (handle_key_input g input).input_state.camera_pitch = g.input_state.camera_pitch ∧
    handle_key_input g ⟨none, st⟩ = g ∧
    handle_key_input g ⟨some (VirtualKeyCode.other n), st⟩ = g ∧
    (handle_device_event g e).scene = g.scene ∧
    (handle_device_event g e).player = g.player ∧
    (handle_device_event g e).camera = g.camera ∧
    (handle_device_event g e).last_time = g.last_time ∧
    (handle_device_event g e).input_state.move_forward = g.input_state.move_forward ∧
    (handle_device_event g e).input_state.move_backward = g.input_state.move_backward ∧
    (handle_device_event g e).input_state.move_left = g.input_state.move_left ∧
    (handle_device_event g e).input_state.move_right = g.input_state.move_right ∧
    (handle_device_event g e).input_state.mouse_delta.z = g.input_state.mouse_delta.z ∧
    (handle_device_event g e).input_state.camera_yaw = g.input_state.camera_yaw ∧
    (handle_device_event g e).input_state.camera_pitch = g.input_state.camera_pitch ∧
    (handle_device_event g (DeviceEvent.mouseMotion dx dy)).input_state.mouse_delta.x = dx ∧
    (handle_device_event g (DeviceEvent.mouseMotion dx dy)).input_state.mouse_delta.y = dy := by
  obtain ⟨kc, kst⟩ := input
  refine ⟨?_, ?_, ?_, ?_, ?_, ?_, ?_, ?_, ?_, ?_, ?_, ?_, ?_, ?_, ?_, ?_, ?_, ?_, ?_, ?_,
    ?_, ?_⟩
  all_goals try rfl
  all_goals try (cases e <;> rfl)
  all_goals
    cases kc with
    | none => rfl
    | some k => cases k <;> rfl

/-- C5 counterexample: player at the origin, camera at (0, 0, 5) with
starting orientation `rotYaw90`.  Two frame updates with dt = 0 change
the camera rotation to the recomputed look-at value (the identity,
since the look direction is the -Z axis), so the poses are not left
unchanged for every starting pair of poses. -/
theorem c5_counterexample :
    ((updateFrame (gameOf (inputOf false false false false))
        (updateFrame (gameOf (inputOf false false false false))
          (sceneOf ⟨⟨0, 0, 0⟩, some rotIdentity⟩ ⟨⟨0, 0, 5⟩, some rotYaw90⟩) 0) 0).graph
        1).map (fun q => q.rotation) = some (some rotIdentity) ∧
    ((sceneOf ⟨⟨0, 0, 0⟩, some rotIdentity⟩ ⟨⟨0, 0, 5⟩, some rotYaw90⟩).graph 1).map
      (fun q => q.rotation) = some (some rotYaw90) ∧
    (some (some rotIdentity) : Option (Option Rot3)) ≠ some (some rotYaw90) := by
  have hd : (⟨0, 0, 0⟩ : Vec3) - ⟨0, 0, 5⟩ = ⟨0, 0, -5⟩ := by
    ext <;> norm_num
  have hA : update_camera (gameOf (inputOf false false false false))
      (sceneOf ⟨⟨0, 0, 0⟩, some rotIdentity⟩ ⟨⟨0, 0, 5⟩, some rotYaw90⟩) 0 =
      setPose (sceneOf ⟨⟨0, 0, 0⟩, some rotIdentity⟩ ⟨⟨0, 0, 5⟩, some rotYaw90⟩) 1
        ⟨⟨0, 0, 5⟩, some rotIdentity⟩ := by
    rw [update_camera_of_some _ _ 0 ⟨⟨0, 0, 0⟩, some rotIdentity⟩
      ⟨⟨0, 0, 5⟩, some rotYaw90⟩ rfl rfl, lerp_dt_zero,
      show (gameOf (inputOf false false false false)).camera = 1 from rfl]
    refine congrArg (setPose _ 1) ?_
    refine Pose.ext rfl ?_
    show (normalizeOpt ((⟨0, 0, 0⟩ : Vec3) - ⟨0, 0, 5⟩)).bind
      (fun d => lookAtRH d ⟨0, 1, 0⟩) = some rotIdentity
    rw [hd, normalizeOpt_negz5]
    exact lookAtRH_negz
  have hB : update_camera (gameOf (inputOf false false false false))
      (setPose (sceneOf ⟨⟨0, 0, 0⟩, some rotIdentity⟩ ⟨⟨0, 0, 5⟩, some rotYaw90⟩) 1
        ⟨⟨0, 0, 5⟩, some rotIdentity⟩) 0 =
      setPose (setPose (sceneOf ⟨⟨0, 0, 0⟩, some rotIdentity⟩
          ⟨⟨0, 0, 5⟩, some rotYaw90⟩) 1 ⟨⟨0, 0, 5⟩, some rotIdentity⟩) 1
        ⟨⟨0, 0, 5⟩, some rotIdentity⟩ := by
    rw [update_camera_of_some _ _ 0 ⟨⟨0, 0, 0⟩, some rotIdentity⟩
      ⟨⟨0, 0, 5⟩, some rotIdentity⟩
      (by
        rw [setPose_graph_ne _ _ _ _
          (show (gameOf (inputOf false false false false)).player ≠ 1 by decide)]
        rfl)
      (by
        rw [show (gameOf (inputOf false false false false)).camera = 1 from rfl]
        exact setPose_graph_self _ _ _), lerp_dt_zero,
      show (gameOf (inputOf false false false false)).camera = 1 from rfl]
    refine congrArg (setPose _ 1) ?_
    refine Pose.ext rfl ?_
    show (normalizeOpt ((⟨0, 0, 0⟩ : Vec3) - ⟨0, 0, 5⟩)).bind
      (fun d => lookAtRH d ⟨0, 1, 0⟩) = some rotIdentity
    rw [hd, normalizeOpt_negz5]
    exact lookAtRH_negz
  have hframe1 : updateFrame (gameOf (inputOf false false false false))
      (sceneOf ⟨⟨0, 0, 0⟩, some rotIdentity⟩ ⟨⟨0, 0, 5⟩, some rotYaw90⟩) 0 =
      setPose (sceneOf ⟨⟨0, 0, 0⟩, some rotIdentity⟩ ⟨⟨0, 0, 5⟩, some rotYaw90⟩) 1
        ⟨⟨0, 0, 5⟩, some rotIdentity⟩ := by
    rw [updateFrame, update_player_movement_dt_zero]
    exact hA
  have hframe2 : updateFrame (gameOf (inputOf false false false false))
      (setPose (sceneOf ⟨⟨0, 0, 0⟩, some rotIdentity⟩ ⟨⟨0, 0, 5⟩, some rotYaw90⟩) 1
        ⟨⟨0, 0, 5⟩, some rotIdentity⟩) 0 =
      setPose (setPose (sceneOf ⟨⟨0, 0, 0⟩, some rotIdentity⟩
          ⟨⟨0, 0, 5⟩, some rotYaw90⟩) 1 ⟨⟨0, 0, 5⟩, some rotIdentity⟩) 1
        ⟨⟨0, 0, 5⟩, some rotIdentity⟩ := by
    rw [updateFrame, update_player_movement_dt_zero]
    exact hB
  refine ⟨?_, rfl, ?_⟩
  · rw [hframe1, hframe2, setPose_graph_self]
    rfl
  · intro hcon
    have h2 := Option.some.inj (Option.some.inj hcon)
    exact absurd (congrArg (fun m => m.col0.x) h2)
      (by norm_num [rotIdentity, rotYaw90])

/-- C5 (amended): the dt = 0 frame update changes no position, and it
is idempotent: a second dt = 0 update leaves the state produced by the
first one exactly unchanged.  The camera rotation, however, is
recomputed from scratch on every update, so the first dt = 0 call may
rewrite it (see the counterexample); only from the second call on is
the full pose a fixed point. -/
theorem c5_idempotent (g : Game) (s : Scene) (h : Nat) :
    ((updateFrame g s 0).graph h).map (fun q => q.position) =
      (s.graph h).map (fun q => q.position) ∧
    updateFrame g (updateFrame g s 0) 0 = updateFrame g s 0 := by
  constructor
  · rw [updateFrame, update_player_movement_dt_zero g s]
    exact update_camera_dt_zero_positions g s h
  · simp only [updateFrame]
    rw [update_player_movement_dt_zero g s,
      update_player_movement_dt_zero g (update_camera g s 0)]
    exact update_camera_dt_zero_idem g s

end
